import Mathlib

/-!
Verification of the RBAC authorization core of the warehouse-management
application: permission values and merge engine (src/lib/permissions.ts),
the static permission matrix (src/types/rbac.ts), warehouse isolation
(src/lib/warehouse-isolation.ts, src/lib/api-auth.ts), the client context
builder (src/hooks/usePermissions.ts), and the database-side permission
snapshot function (src/supabase/migrations/011_create_wms_auth_tables.sql).
-/

/-- Permission capabilities, from `Permission` in src/types/rbac.ts. -/
inductive Permission
  | view_dashboard
  | view_transactions
  | create_transactions
  | edit_transactions
  | view_stock
  | manage_ros
  | manage_users
  | view_reports
  | system_settings
  deriving DecidableEq, Fintype, Repr

/-- Permission values, from `PermissionValue = boolean | "own" | "all"` in
src/types/rbac.ts.  `pfalse`/`ptrue` model the booleans, `own` and `all`
the string literals. -/
inductive PermissionValue
  | pfalse
  | ptrue
  | own
  | all
  deriving DecidableEq, Fintype, Repr

/-- User roles, from `UserRole` in src/types/rbac.ts. -/
inductive UserRole
  | staff
  | supervisor
  | admin
  | gm
  | ops_manager
  deriving DecidableEq, Fintype, Repr

/-- Warehouse codes, from `WarehouseCode` in src/types/rbac.ts. -/
inductive WarehouseCode
  | DDD
  | LJBB
  | MBB
  | UBB
  deriving DecidableEq, Fintype, Repr

/-- `ALL_WAREHOUSES` from src/types/rbac.ts. -/
def ALL_WAREHOUSES : List WarehouseCode :=
  [WarehouseCode.DDD, WarehouseCode.LJBB, WarehouseCode.MBB, WarehouseCode.UBB]

/-- A `PermissionRecord` (`Partial<Record<Permission, PermissionValue>>`)
is a partial map from capabilities to values; `none` models an absent key. -/
abbrev PermissionRecord := Permission → Option PermissionValue

/-- The empty permission record `{}`. -/
def emptyPermissions : PermissionRecord := fun _ => none

/-- `PERMISSION_MATRIX` from src/types/rbac.ts: every role defines every
capability explicitly, so the record is total. -/
def PERMISSION_MATRIX : UserRole → Permission → PermissionValue
  | .staff, .view_dashboard => .ptrue
  | .staff, .view_transactions => .own
  | .staff, .create_transactions => .ptrue
  | .staff, .edit_transactions => .pfalse
  | .staff, .view_stock => .own
  | .staff, .manage_ros => .ptrue
  | .staff, .manage_users => .pfalse
  | .staff, .view_reports => .pfalse
  | .staff, .system_settings => .pfalse
  | .supervisor, .view_dashboard => .ptrue
  | .supervisor, .view_transactions => .own
  | .supervisor, .create_transactions => .ptrue
  | .supervisor, .edit_transactions => .ptrue
  | .supervisor, .view_stock => .own
  | .supervisor, .manage_ros => .ptrue
  | .supervisor, .manage_users => .pfalse
  | .supervisor, .view_reports => .ptrue
  | .supervisor, .system_settings => .pfalse
  | .admin, .view_dashboard => .ptrue
  | .admin, .view_transactions => .all
  | .admin, .create_transactions => .ptrue
  | .admin, .edit_transactions => .ptrue
  | .admin, .view_stock => .all
  | .admin, .manage_ros => .ptrue
  | .admin, .manage_users => .ptrue
  | .admin, .view_reports => .ptrue
  | .admin, .system_settings => .ptrue
  | .gm, .view_dashboard => .ptrue
  | .gm, .view_transactions => .all
  | .gm, .create_transactions => .pfalse
  | .gm, .edit_transactions => .pfalse
  | .gm, .view_stock => .all
  | .gm, .manage_ros => .ptrue
  | .gm, .manage_users => .ptrue
  | .gm, .view_reports => .ptrue
  | .gm, .system_settings => .pfalse
  | .ops_manager, .view_dashboard => .ptrue
  | .ops_manager, .view_transactions => .all
  | .ops_manager, .create_transactions => .pfalse
  | .ops_manager, .edit_transactions => .pfalse
  | .ops_manager, .view_stock => .all
  | .ops_manager, .manage_ros => .ptrue
  | .ops_manager, .manage_users => .ptrue
  | .ops_manager, .view_reports => .ptrue
  | .ops_manager, .system_settings => .pfalse

/-- `GLOBAL_WAREHOUSE_ACCESS_ROLES` from src/types/rbac.ts. -/
def GLOBAL_WAREHOUSE_ACCESS_ROLES : List UserRole :=
  [UserRole.admin, UserRole.gm, UserRole.ops_manager]

/-- `hasPermissionValue` from src/lib/permissions.ts:
`if (value === true || value === "all") return true;
 if (requireAll) return false;
 if (value === "own") return true;
 return false;` -/
def hasPermissionValue (value : Option PermissionValue) (requireAll : Bool) : Bool :=
  if value = some .ptrue ∨ value = some .all then true
  else if requireAll then false
  else if value = some .own then true
  else false

/-- One per-capability step of the merge loop body of
`getEffectivePermissions` (src/lib/permissions.ts): given the
currently-stored effective value and the role value for a capability,
produce the new stored value, mirroring the four branches of the source. -/
def mergeEntry (current : Option PermissionValue) (value : PermissionValue) :
    Option PermissionValue :=
  if value = .all then some .all
  else if value = .own ∧ current ≠ some .all then some .own
  else if value = .ptrue ∧ current ≠ some .all ∧ current ≠ some .own then some .ptrue
  else if current = none then some value
  else current

/-- `getEffectivePermissions` from src/lib/permissions.ts: fold of the
per-capability merge over the role list, starting from the empty record.
Every role is present in `PERMISSION_MATRIX`, so the source guard
`if (!rolePerms) continue` never fires, and the inner loop over
`Object.entries(rolePerms)` touches each capability independently. -/
def getEffectivePermissions (roles : List UserRole) : PermissionRecord :=
  roles.foldl
    (fun eff role => fun p => mergeEntry (eff p) (PERMISSION_MATRIX role p))
    emptyPermissions

/-- `checkPermission` from src/lib/permissions.ts. -/
def checkPermission (permissions : PermissionRecord) (permission : Permission)
    (requireAll : Bool) : Bool :=
  hasPermissionValue (permissions permission) requireAll

/-- `hasAnyRole` from src/lib/permissions.ts: an empty required list is
satisfied vacuously. -/
def hasAnyRole (userRoles requiredRoles : List UserRole) : Bool :=
  if requiredRoles.isEmpty then true
  else requiredRoles.any (fun role => userRoles.contains role)

/-- `hasAllRoles` from src/lib/permissions.ts. -/
def hasAllRoles (userRoles requiredRoles : List UserRole) : Bool :=
  if requiredRoles.isEmpty then true
  else requiredRoles.all (fun role => userRoles.contains role)

/-- `roleHasGlobalWarehouseAccess` from src/lib/permissions.ts. -/
def roleHasGlobalWarehouseAccess (role : UserRole) : Bool :=
  GLOBAL_WAREHOUSE_ACCESS_ROLES.contains role

/-- `userHasGlobalWarehouseAccess` from src/lib/permissions.ts. -/
def userHasGlobalWarehouseAccess (roles : List UserRole) : Bool :=
  roles.any roleHasGlobalWarehouseAccess

/-! ## Database-side permission snapshot
(src/supabase/migrations/011_create_wms_auth_tables.sql) -/

/-- The role permission records seeded into `wms_roles.permissions` by
section 5 of 011_create_wms_auth_tables.sql.  Each role's jsonb object
defines all nine capability keys.  The seeded values coincide with
`PERMISSION_MATRIX`; they are transcribed here from the SQL INSERTs. -/
def wmsRolesSeedPermissions (role : UserRole) (p : Permission) :
    Option PermissionValue :=
  some (PERMISSION_MATRIX role p)

/-- jsonb object concatenation `a || b`: keys of `b` overwrite keys of `a`. -/
def jsonbConcat (a b : PermissionRecord) : PermissionRecord :=
  fun p => match b p with
    | some v => some v
    | none => a p

/-- `get_user_permissions` from 011_create_wms_auth_tables.sql: iterates
over the permission jsonb of each role held by the user and accumulates
with `v_permissions := v_permissions || v_role_permissions`.  The argument
is the list of the user's role rows in the order the query returns them. -/
def get_user_permissions (userRoles : List UserRole) : PermissionRecord :=
  userRoles.foldl
    (fun acc role => jsonbConcat acc (wmsRolesSeedPermissions role))
    emptyPermissions

/-! ## Client authorization-context builder (src/hooks/usePermissions.ts) -/

/-- The permission state kept by `usePermissions` after `fetchPermissionData`
completes: roles, effective permissions, warehouses, and the error value. -/
structure PermissionDataState where
  roles : List UserRole
  permissions : PermissionRecord
  warehouses : List WarehouseCode
  error : Option String

/-- `fetchPermissionData` from src/hooks/usePermissions.ts, for a signed-in
user.  Each argument is the result pair of one of the three parallel
fetches (`fetchUserRoles`, `fetchUserWarehouses`, `fetchUserPermissions`),
data paired with an optional error.  If any fetch reported an error the
hook throws it and the catch block resets to the empty state with the
error recorded; otherwise the snapshot is used when it has at least one
key and the local merge of the fetched roles is used when it is empty. -/
def fetchPermissionData
    (rolesResult : List UserRole × Option String)
    (warehousesResult : List WarehouseCode × Option String)
    (permissionsResult : PermissionRecord × Option String) :
    PermissionDataState :=
  if rolesResult.2.isSome ∨ warehousesResult.2.isSome ∨
      permissionsResult.2.isSome then
    { roles := []
      permissions := emptyPermissions
      warehouses := []
      error := rolesResult.2 <|> warehousesResult.2 <|> permissionsResult.2 }
  else
    { roles := rolesResult.1
      permissions :=
        if ∃ p, permissionsResult.1 p ≠ none then permissionsResult.1
        else getEffectivePermissions rolesResult.1
      warehouses := warehousesResult.1
      error := none }

/-- The `canAccessWarehouse` guard of `usePermissions` evaluated on a
permission state (for a signed-in user): global access first, then the
explicit assignment list. -/
def hookCanAccessWarehouse (s : PermissionDataState) (w : WarehouseCode) :
    Bool :=
  if userHasGlobalWarehouseAccess s.roles then true
  else s.warehouses.contains w

/-! ## API route protection (src/lib/api-auth.ts) -/

/-- The `options` argument of `checkApiPermissions`. -/
structure ApiCheckOptions where
  requiredPermission : Option Permission
  requiredRoles : Option (List UserRole)
  requireAll : Bool
  requireAllRoles : Bool

/-- `ApiPermissionCheckResult` from src/lib/api-auth.ts. -/
structure ApiPermissionCheckResult where
  allowed : Bool
  userId : Option String
  roles : List UserRole
  permissions : PermissionRecord
  warehouses : List WarehouseCode
  error : Option String
  statusCode : Nat

/-- `checkApiPermissions` from src/lib/api-auth.ts.  `authUser` is the
result of `supabase.auth.getUser` (`none` models an auth error or missing
user); `roleFetch` and `warehouseFetch` are the outcomes of the two
datastore reads.  A role-fetch error returns the empty 500 result; a
warehouse-fetch error only leaves the warehouse list empty (the source
assigns warehouses solely under `if (!warehouseError && warehouseData)`)
and checking continues. -/
def checkApiPermissions (authUser : Option String)
    (roleFetch : Except String (List UserRole))
    (warehouseFetch : Except String (List WarehouseCode))
    (options : ApiCheckOptions) : ApiPermissionCheckResult :=
  match authUser with
  | none =>
      { allowed := false, userId := none, roles := []
        permissions := emptyPermissions, warehouses := []
        error := some "Unauthorized - Authentication required"
        statusCode := 401 }
  | some userId =>
    match roleFetch with
    | .error _ =>
        { allowed := false, userId := some userId, roles := []
          permissions := emptyPermissions, warehouses := []
          error := some "Failed to verify permissions", statusCode := 500 }
    | .ok roles =>
      let permissions := getEffectivePermissions roles
      let hasGlobalAccess := roles.any (fun role =>
        [UserRole.admin, UserRole.gm, UserRole.ops_manager].contains role)
      let warehouses : List WarehouseCode :=
        if hasGlobalAccess then ALL_WAREHOUSES
        else
          match warehouseFetch with
          | .ok ws => ws
          | .error _ => []
      let roleCheckFails : Bool :=
        match options.requiredRoles with
        | some reqRoles =>
            decide (reqRoles.length > 0) &&
              !(if options.requireAllRoles then
                  reqRoles.all (fun role => roles.contains role)
                else reqRoles.any (fun role => roles.contains role))
        | none => false
      if roleCheckFails then
        { allowed := false, userId := some userId, roles := roles
          permissions := permissions, warehouses := warehouses
          error := some "Forbidden - missing required role"
          statusCode := 403 }
      else
        let permCheckFails : Bool :=
          match options.requiredPermission with
          | some rp => !(hasPermissionValue (permissions rp) options.requireAll)
          | none => false
        if permCheckFails then
          { allowed := false, userId := some userId, roles := roles
            permissions := permissions, warehouses := warehouses
            error := some "Forbidden - missing required permission"
            statusCode := 403 }
        else
          { allowed := true, userId := some userId, roles := roles
            permissions := permissions, warehouses := warehouses
            error := none, statusCode := 200 }

/-! ## Warehouse isolation (src/lib/warehouse-isolation.ts, api-auth.ts) -/

/-- The `filterQuery.value` of a `WarehouseFilterResult`: a single code
(string) or a list of codes. -/
inductive FilterValue
  | single (w : WarehouseCode)
  | multi (ws : List WarehouseCode)
  deriving DecidableEq, Repr

/-- `WarehouseFilterResult` from src/lib/warehouse-isolation.ts.  The
`filterQuery.column` is always the literal "warehouse", so only the value
is modelled. -/
structure WarehouseFilterResult where
  hasAccess : Bool
  accessibleWarehouses : List WarehouseCode
  hasSpecificAccess : Option Bool
  filterValue : FilterValue
  error : Option String
  deriving DecidableEq, Repr

/-- `getServerWarehouseFilter` from src/lib/warehouse-isolation.ts.
`roleFetch` / `warehouseFetch` are the outcomes of the two datastore
reads; `warehouseCode` and `allowGlobalAccess` are the options (the
source default for `allowGlobalAccess` is `true`). -/
def getServerWarehouseFilter
    (roleFetch : Except String (List UserRole))
    (warehouseFetch : Except String (List WarehouseCode))
    (warehouseCode : Option WarehouseCode)
    (allowGlobalAccess : Bool) : WarehouseFilterResult :=
  match roleFetch with
  | .error _ =>
      { hasAccess := false, accessibleWarehouses := []
        hasSpecificAccess := none, filterValue := .multi []
        error := some "Failed to verify access" }
  | .ok roles =>
    let hasGlobalAccess := allowGlobalAccess && roles.any (fun role =>
      [UserRole.admin, UserRole.gm, UserRole.ops_manager].contains role)
    if hasGlobalAccess then
      { hasAccess := true, accessibleWarehouses := ALL_WAREHOUSES
        hasSpecificAccess := warehouseCode.map (fun w =>
          ALL_WAREHOUSES.contains w)
        filterValue :=
          match warehouseCode with
          | some w => .single w
          | none => .multi ALL_WAREHOUSES
        error := none }
    else
      match warehouseFetch with
      | .error _ =>
          { hasAccess := false, accessibleWarehouses := []
            hasSpecificAccess := none, filterValue := .multi []
            error := some "Failed to fetch warehouse assignments" }
      | .ok warehouses =>
        if warehouses.length = 0 then
          { hasAccess := false, accessibleWarehouses := []
            hasSpecificAccess := none, filterValue := .multi []
            error := some "No warehouse access assigned" }
        else
          { hasAccess := true, accessibleWarehouses := warehouses
            hasSpecificAccess := warehouseCode.map (fun w =>
              warehouses.contains w)
            filterValue :=
              match warehouseCode with
              | some w => .single w
              | none => .multi warehouses
            error := none }

/-- Result of `getUserWarehouseFilter` from src/lib/api-auth.ts. -/
structure UserWarehouseFilter where
  warehouses : List WarehouseCode
  hasAllAccess : Bool
  error : Option String
  deriving DecidableEq, Repr

/-- `getUserWarehouseFilter` from src/lib/api-auth.ts.  The role query
result is destructured without an error check (`const { data: roleData }`),
so a failed role read simply yields a null `roleData`, modelled as `none`. -/
def getUserWarehouseFilter (roleData : Option (List UserRole))
    (warehouseFetch : Except String (List WarehouseCode)) :
    UserWarehouseFilter :=
  let roles := roleData.getD []
  let hasAllAccess := roles.any (fun role =>
    [UserRole.admin, UserRole.gm, UserRole.ops_manager].contains role)
  if hasAllAccess then
    { warehouses := ALL_WAREHOUSES, hasAllAccess := true, error := none }
  else
    match warehouseFetch with
    | .error _ =>
        { warehouses := [], hasAllAccess := false
          error := some "Failed to fetch warehouse access" }
    | .ok ws => { warehouses := ws, hasAllAccess := false, error := none }

/-- The filter a consuming query receives from `applyWarehouseFilter`:
either an `.in(column, list)` or an `.eq(column, code)` clause. -/
inductive AppliedFilter
  | inList (ws : List WarehouseCode)
  | eqCode (w : WarehouseCode)
  deriving DecidableEq, Repr

/-- `applyWarehouseFilter` from src/lib/warehouse-isolation.ts: builds the
server filter with default options and returns `none` (the source returns
`null`) when the user has no access, otherwise the clause applied to the
query. -/
def applyWarehouseFilter
    (roleFetch : Except String (List UserRole))
    (warehouseFetch : Except String (List WarehouseCode)) :
    Option AppliedFilter :=
  let filter := getServerWarehouseFilter roleFetch warehouseFetch none true
  if !filter.hasAccess then none
  else
    match filter.filterValue with
    | .multi ws => some (.inList ws)
    | .single w => some (.eqCode w)

/-- The textual name of a warehouse code. -/
def warehouseCodeName : WarehouseCode → String
  | .DDD => "DDD"
  | .LJBB => "LJBB"
  | .MBB => "MBB"
  | .UBB => "UBB"

/-- `getWarehouseSqlFilter` from src/lib/warehouse-isolation.ts.  "\x27"
is the single-quote character wrapping each code in the IN list. -/
def getWarehouseSqlFilter (accessibleWarehouses : List WarehouseCode)
    (columnName : String) : String :=
  if accessibleWarehouses.length = 0 then "FALSE"
  else if accessibleWarehouses.length = 4 then "TRUE"
  else
    let values := String.intercalate ", "
      (accessibleWarehouses.map (fun code =>
        "\x27" ++ warehouseCodeName code ++ "\x27"))
    columnName ++ " IN (" ++ values ++ ")"

/-! ## Merge algebra: rank order and supremum view of `mergeEntry` -/

/-- Precedence rank of a permission value: all > own > true > false. -/
def pvRank : PermissionValue → Nat
  | .pfalse => 0
  | .ptrue => 1
  | .own => 2
  | .all => 3

/-- Rank of a possibly-absent value; an absent entry ranks below every
explicit value. -/
def orank : Option PermissionValue → Nat
  | none => 0
  | some v => pvRank v + 1

/-- Higher-precedence of two permission values. -/
def pvMax (u v : PermissionValue) : PermissionValue :=
  if pvRank u < pvRank v then v else u

/-- Supremum on possibly-absent permission values. -/
def osup : Option PermissionValue → Option PermissionValue →
    Option PermissionValue
  | none, b => b
  | some u, none => some u
  | some u, some v => some (pvMax u v)

theorem mergeEntry_none_left : ∀ v, mergeEntry none v = some v := by decide

theorem mergeEntry_all_left : ∀ v,
    mergeEntry (some PermissionValue.all) v = some PermissionValue.all := by
  decide

theorem mergeEntry_all_right : ∀ c,
    mergeEntry c PermissionValue.all = some PermissionValue.all := by decide

theorem mergeEntry_some_eq : ∀ c w,
    mergeEntry (some c) w = some (pvMax c w) := by decide

theorem mergeEntry_right_comm : ∀ c a b,
    mergeEntry (mergeEntry c a) b = mergeEntry (mergeEntry c b) a := by decide

theorem mergeEntry_eq_osup : ∀ c v, mergeEntry c v = osup c (some v) := by
  decide

theorem osup_assoc : ∀ a b c, osup (osup a b) c = osup a (osup b c) := by
  decide

theorem osup_none_right : ∀ a, osup a none = a := by decide

theorem osup_idem : ∀ a, osup a a = a := by decide

theorem pvMax_choice : ∀ c w, pvMax c w = c ∨ pvMax c w = w := by decide

theorem pvRank_le_pvMax_left : ∀ c w, pvRank c ≤ pvRank (pvMax c w) := by
  decide

theorem pvRank_le_pvMax_right : ∀ c w, pvRank w ≤ pvRank (pvMax c w) := by
  decide

/-- The record-level fold of `getEffectivePermissions`, applied at one
capability, is the scalar fold of `mergeEntry` over the per-role values. -/
theorem foldl_record_apply (roles : List UserRole) (eff : PermissionRecord)
    (p : Permission) :
    (roles.foldl
        (fun eff role => fun q => mergeEntry (eff q) (PERMISSION_MATRIX role q))
        eff) p =
      roles.foldl (fun c role => mergeEntry c (PERMISSION_MATRIX role p))
        (eff p) := by
  induction roles generalizing eff with
  | nil => rfl
  | cons r rs ih =>
      simp only [List.foldl_cons]
      exact ih _

theorem getEffectivePermissions_apply (roles : List UserRole)
    (p : Permission) :
    getEffectivePermissions roles p =
      (roles.map (fun role => PERMISSION_MATRIX role p)).foldl mergeEntry
        none := by
  rw [List.foldl_map]
  exact foldl_record_apply roles emptyPermissions p

/-- Pulling the start value out of a `mergeEntry` fold as a supremum. -/
theorem foldl_mergeEntry_osup (l : List PermissionValue) :
    ∀ c, l.foldl mergeEntry c = osup c (l.foldl mergeEntry none) := by
  induction l with
  | nil =>
      intro c
      simp [List.foldl_nil, osup_none_right]
  | cons v t ih =>
      intro c
      simp only [List.foldl_cons]
      rw [ih (mergeEntry c v), ih (mergeEntry none v),
        mergeEntry_eq_osup c v, mergeEntry_eq_osup none v, osup_assoc]
      rfl

/-- Folding `mergeEntry` from an already-all start never changes it. -/
theorem foldl_mergeEntry_all_start : ∀ t : List PermissionValue,
    t.foldl mergeEntry (some PermissionValue.all) =
      some PermissionValue.all := by
  intro t
  induction t with
  | nil => rfl
  | cons w t ih =>
      simp only [List.foldl_cons, mergeEntry_all_left]
      exact ih

/-- If the value `all` occurs anywhere in the list, the fold yields `all`. -/
theorem foldl_mergeEntry_of_all_mem :
    ∀ (l : List PermissionValue) (c : Option PermissionValue),
      PermissionValue.all ∈ l →
      l.foldl mergeEntry c = some PermissionValue.all := by
  intro l
  induction l with
  | nil =>
      intro c h
      cases h
  | cons w t ih =>
      intro c h
      rcases List.mem_cons.mp h with hw | ht
      · subst hw
        simp only [List.foldl_cons, mergeEntry_all_right]
        exact foldl_mergeEntry_all_start t
      · simp only [List.foldl_cons]
        exact ih _ ht

/-- A `mergeEntry` fold from an explicit start returns a value attained by
the start or the list, bounding every element in rank. -/
theorem foldl_mergeEntry_attained :
    ∀ (l : List PermissionValue) (c : PermissionValue),
      ∃ v, l.foldl mergeEntry (some c) = some v ∧ (v = c ∨ v ∈ l) ∧
        pvRank c ≤ pvRank v ∧ ∀ w ∈ l, pvRank w ≤ pvRank v := by
  intro l
  induction l with
  | nil =>
      intro c
      exact ⟨c, rfl, Or.inl rfl, le_refl _, by simp⟩
  | cons w t ih =>
      intro c
      obtain ⟨v, hv, hmem, hrank, hbound⟩ := ih (pvMax c w)
      refine ⟨v, ?_, ?_, ?_, ?_⟩
      · simpa [List.foldl_cons, mergeEntry_some_eq] using hv
      · rcases hmem with hvc | hvt
        · rcases pvMax_choice c w with hcw | hcw
          · exact Or.inl (hvc.trans hcw)
          · exact Or.inr (by simp [hvc.trans hcw])
        · exact Or.inr (List.mem_cons_of_mem w hvt)
      · exact le_trans (pvRank_le_pvMax_left c w) hrank
      · intro x hx
        rcases List.mem_cons.mp hx with hxw | hxt
        · subst hxw
          exact le_trans (pvRank_le_pvMax_right c x) hrank
        · exact hbound x hxt

/-! ## Claims -/

/-- Claim C1 counterexample: the capability guard under an all-access
requirement is also satisfied by the boolean value `true` (the source
checks `value === true || value === "all"` before consulting
`requireAll`), so it is not satisfied only by `all`. -/
theorem C1_counterexample :
    hasPermissionValue (some PermissionValue.ptrue) true = true ∧
    some PermissionValue.ptrue ≠ some PermissionValue.all := by decide

/-- Claim C1 (amended): `hasPermissionValue` with `requireAll = true`
returns true exactly for the values `true` and `all`; `own` and absent
values never satisfy an all-access requirement; a basic requirement
(`requireAll = false`) is satisfied exactly by `true`, `own` and `all`;
and `checkPermission` is the guard applied to the record entry. -/
theorem C1_guard_levels :
    (∀ v : Option PermissionValue,
      hasPermissionValue v true = true ↔
        v = some PermissionValue.ptrue ∨ v = some PermissionValue.all) ∧
    hasPermissionValue (some PermissionValue.own) true = false ∧
    hasPermissionValue none true = false ∧
    (∀ v : Option PermissionValue,
      hasPermissionValue v false = true ↔
        v = some PermissionValue.ptrue ∨ v = some PermissionValue.own ∨
          v = some PermissionValue.all) ∧
    (∀ (perms : PermissionRecord) (p : Permission) (b : Bool),
      checkPermission perms p b = hasPermissionValue (perms p) b) :=
  ⟨by decide, by decide, by decide, by decide, fun _ _ _ => rfl⟩

/-- Claim C3: the database snapshot `get_user_permissions` accumulates the
role jsonb objects with `||`, so the last role row wins per key; for a
user holding admin and staff (in that order) the snapshot gives
`view_transactions = own` while the local precedence merge
`getEffectivePermissions` gives `all`, so the two strategies disagree. -/
theorem C3_snapshot_divergence :
    get_user_permissions [UserRole.admin, UserRole.staff]
        Permission.view_transactions = some PermissionValue.own ∧
    getEffectivePermissions [UserRole.admin, UserRole.staff]
        Permission.view_transactions = some PermissionValue.all ∧
    get_user_permissions [UserRole.admin, UserRole.staff]
        Permission.view_transactions ≠
      getEffectivePermissions [UserRole.admin, UserRole.staff]
        Permission.view_transactions := by decide

/-- Claim C7: with zero roles the effective map is empty, so every
capability check fails at both requirement levels. -/
theorem C7_empty_roles_denied :
    ∀ (p : Permission) (requireAll : Bool),
      checkPermission (getEffectivePermissions []) p requireAll = false := by
  decide

/-- Claim C4: if any held role grants `all` on a capability, the effective
permission for that capability is `all`, whatever the other roles say. -/
theorem C4_all_access_wins :
    ∀ (roles : List UserRole) (r : UserRole) (p : Permission),
      r ∈ roles → PERMISSION_MATRIX r p = PermissionValue.all →
      getEffectivePermissions roles p = some PermissionValue.all := by
  intro roles r p hr hall
  rw [getEffectivePermissions_apply]
  exact foldl_mergeEntry_of_all_mem _ none
    (List.mem_map.mpr ⟨r, hr, hall⟩)

/-- Witness for C4 at a concrete input: staff plus admin yields all-access
on view_stock. -/
theorem C4_witness :
    getEffectivePermissions [UserRole.staff, UserRole.admin]
        Permission.view_stock = some PermissionValue.all :=
  C4_all_access_wins [UserRole.staff, UserRole.admin] UserRole.admin
    Permission.view_stock (by decide) (by decide)

/-- Claim C8: the permission merge is order-independent; for a nonempty
role list the effective value of each capability is one actually granted
by a held role and bounds every held role's value in precedence rank; and
one merge step never downgrades the already-stored value. -/
theorem C8_merge_order_independent :
    (∀ rs rt : List UserRole, rs.Perm rt →
      getEffectivePermissions rs = getEffectivePermissions rt) ∧
    (∀ (rs : List UserRole) (p : Permission), rs ≠ [] →
      ∃ r ∈ rs,
        getEffectivePermissions rs p = some (PERMISSION_MATRIX r p) ∧
        ∀ rq ∈ rs, pvRank (PERMISSION_MATRIX rq p) ≤
          pvRank (PERMISSION_MATRIX r p)) ∧
    (∀ (c : Option PermissionValue) (v : PermissionValue),
      orank c ≤ orank (mergeEntry c v)) := by
  refine ⟨?_, ?_, by decide⟩
  · intro rs rt h
    unfold getEffectivePermissions
    exact h.foldl_eq'
      (fun x _ y _ z => by
        funext p
        exact mergeEntry_right_comm (z p) (PERMISSION_MATRIX x p)
          (PERMISSION_MATRIX y p))
      emptyPermissions
  · intro rs p hne
    obtain ⟨r0, rest, rfl⟩ := List.exists_cons_of_ne_nil hne
    obtain ⟨v, hv, hmem, hrank, hbound⟩ :=
      foldl_mergeEntry_attained
        (rest.map fun role => PERMISSION_MATRIX role p)
        (PERMISSION_MATRIX r0 p)
    have heff : getEffectivePermissions (r0 :: rest) p = some v := by
      rw [getEffectivePermissions_apply, List.map_cons, List.foldl_cons,
        mergeEntry_none_left]
      exact hv
    have hboundAll : ∀ rq ∈ r0 :: rest,
        pvRank (PERMISSION_MATRIX rq p) ≤ pvRank v := by
      intro rq hrq
      rcases List.mem_cons.mp hrq with h0 | hrest
      · subst h0
        exact hrank
      · exact hbound _ (List.mem_map.mpr ⟨rq, hrest, rfl⟩)
    rcases hmem with hvc | hvt
    · subst hvc
      exact ⟨r0, List.mem_cons_self r0 rest, heff, hboundAll⟩
    · obtain ⟨r, hrmem, hrv⟩ := List.mem_map.mp hvt
      subst hrv
      exact ⟨r, List.mem_cons_of_mem r0 hrmem, heff, hboundAll⟩

/-- Witness for C8: a concrete permutation pair and a concrete nonempty
role list. -/
theorem C8_witness :
    getEffectivePermissions [UserRole.staff, UserRole.admin] =
      getEffectivePermissions [UserRole.admin, UserRole.staff] ∧
    ∃ r ∈ [UserRole.staff],
      getEffectivePermissions [UserRole.staff]
          Permission.edit_transactions =
        some (PERMISSION_MATRIX r Permission.edit_transactions) ∧
      ∀ rq ∈ [UserRole.staff],
        pvRank (PERMISSION_MATRIX rq Permission.edit_transactions) ≤
          pvRank (PERMISSION_MATRIX r Permission.edit_transactions) :=
  ⟨C8_merge_order_independent.1 _ _ (by decide),
   C8_merge_order_independent.2.1 [UserRole.staff]
     Permission.edit_transactions (by decide)⟩

/-- Claim C9: merging a role list concatenated with itself yields the same
effective map as merging it once. -/
theorem C9_merge_idempotent :
    ∀ rs : List UserRole,
      getEffectivePermissions (rs ++ rs) = getEffectivePermissions rs := by
  intro rs
  funext p
  rw [getEffectivePermissions_apply, getEffectivePermissions_apply,
    List.map_append, List.foldl_append, foldl_mergeEntry_osup, osup_idem]

/-- On three optional error slots, at least one of which is set, the
orElse chain is set. -/
theorem option_orElse_isSome (a b c : Option String)
    (h : a.isSome ∨ b.isSome ∨ c.isSome) : (a <|> b <|> c).isSome = true := by
  cases a with
  | some x => rfl
  | none =>
    cases b with
    | some y => rfl
    | none =>
      cases c with
      | some z => rfl
      | none => rcases h with h | h | h <;> simp at h

/-- Claim C2 counterexample: in `checkApiPermissions` a warehouse-fetch
failure is silently swallowed: for a non-global user the result keeps the
fetched roles and permissions, reports no error, and is still `allowed`
when the options carry no requirement, contradicting the claim that every
datastore fetch failure yields an empty context with an error and a
non-allow result. -/
theorem C2_counterexample :
    (checkApiPermissions (some "u1") (Except.ok [UserRole.staff])
        (Except.error "db down")
        { requiredPermission := none, requiredRoles := none,
          requireAll := false, requireAllRoles := false }).allowed = true ∧
    (checkApiPermissions (some "u1") (Except.ok [UserRole.staff])
        (Except.error "db down")
        { requiredPermission := none, requiredRoles := none,
          requireAll := false, requireAllRoles := false }).error = none ∧
    (checkApiPermissions (some "u1") (Except.ok [UserRole.staff])
        (Except.error "db down")
        { requiredPermission := none, requiredRoles := none,
          requireAll := false, requireAllRoles := false }).roles =
      [UserRole.staff] ∧
    (checkApiPermissions (some "u1") (Except.ok [UserRole.staff])
        (Except.error "db down")
        { requiredPermission := none, requiredRoles := none,
          requireAll := false, requireAllRoles := false }).warehouses = [] :=
  ⟨rfl, rfl, rfl, rfl⟩

/-- Claim C2 (amended): in the client context builder
`fetchPermissionData`, any failure among the three fetches yields the
denial-safe empty context paired with an error, and the guard evaluators
(capability at either level, role membership, any nonempty role
requirement, warehouse) all deny on it; in `checkApiPermissions` a
role-fetch failure likewise yields the empty context with an error and a
non-allow 500 result — but a warehouse-fetch failure does not (see the
counterexample). -/
theorem C2_denial_safe_context :
    (∀ (rolesResult : List UserRole × Option String)
        (warehousesResult : List WarehouseCode × Option String)
        (permissionsResult : PermissionRecord × Option String),
      rolesResult.2.isSome ∨ warehousesResult.2.isSome ∨
          permissionsResult.2.isSome →
      (fetchPermissionData rolesResult warehousesResult
          permissionsResult).roles = [] ∧
      (fetchPermissionData rolesResult warehousesResult
          permissionsResult).warehouses = [] ∧
      (∀ p, (fetchPermissionData rolesResult warehousesResult
          permissionsResult).permissions p = none) ∧
      (fetchPermissionData rolesResult warehousesResult
          permissionsResult).error.isSome = true ∧
      (∀ (p : Permission) (b : Bool),
        checkPermission (fetchPermissionData rolesResult warehousesResult
          permissionsResult).permissions p b = false) ∧
      (∀ r : UserRole, (fetchPermissionData rolesResult warehousesResult
          permissionsResult).roles.contains r = false) ∧
      (∀ req : List UserRole, req ≠ [] →
        hasAnyRole (fetchPermissionData rolesResult warehousesResult
          permissionsResult).roles req = false) ∧
      (∀ w : WarehouseCode,
        hookCanAccessWarehouse (fetchPermissionData rolesResult
          warehousesResult permissionsResult) w = false)) ∧
    (∀ (uid e : String) (wf : Except String (List WarehouseCode))
        (opts : ApiCheckOptions),
      (checkApiPermissions (some uid) (Except.error e) wf opts).allowed =
          false ∧
      (checkApiPermissions (some uid) (Except.error e) wf opts).roles =
          [] ∧
      (checkApiPermissions (some uid) (Except.error e) wf
          opts).warehouses = [] ∧
      (∀ p, (checkApiPermissions (some uid) (Except.error e) wf
          opts).permissions p = none) ∧
      (checkApiPermissions (some uid) (Except.error e) wf
          opts).error.isSome = true ∧
      (checkApiPermissions (some uid) (Except.error e) wf
          opts).statusCode = 500) := by
  constructor
  · intro rr wr pr h
    have hs : fetchPermissionData rr wr pr =
        { roles := [], permissions := emptyPermissions, warehouses := []
          error := rr.2 <|> wr.2 <|> pr.2 } := by
      unfold fetchPermissionData
      rw [if_pos h]
    rw [hs]
    refine ⟨rfl, rfl, fun p => rfl, option_orElse_isSome _ _ _ h,
      fun p b => by cases b <;> rfl, fun r => rfl, ?_, fun w => rfl⟩
    intro req hne
    cases req with
    | nil => exact absurd rfl hne
    | cons a t => simp [hasAnyRole]
  · intro uid e wf opts
    exact ⟨rfl, rfl, rfl, fun p => rfl, rfl, rfl⟩

/-- Witness for C2 at concrete inputs: a role-fetch error empties the
client context and fails a nonempty role requirement, and a role-fetch
error in the API check denies. -/
theorem C2_witness :
    (fetchPermissionData ([UserRole.admin], some "boom") ([], none)
        (emptyPermissions, none)).roles = [] ∧
    hasAnyRole
      (fetchPermissionData ([UserRole.admin], some "boom") ([], none)
        (emptyPermissions, none)).roles [UserRole.admin] = false ∧
    (checkApiPermissions (some "u2") (Except.error "boom") (Except.ok [])
        { requiredPermission := none, requiredRoles := none,
          requireAll := false, requireAllRoles := false }).allowed = false :=
  ⟨(C2_denial_safe_context.1 ([UserRole.admin], some "boom") ([], none)
      (emptyPermissions, none) (Or.inl rfl)).1,
   (C2_denial_safe_context.1 ([UserRole.admin], some "boom") ([], none)
      (emptyPermissions, none) (Or.inl rfl)).2.2.2.2.2.2.1 [UserRole.admin]
     (by decide),
   (C2_denial_safe_context.2 "u2" "boom" (Except.ok [])
      { requiredPermission := none, requiredRoles := none,
        requireAll := false, requireAllRoles := false }).1⟩

/-- Claim C5: any user holding a global-warehouse-access role gets the
full fixed warehouse set with the global flag, whatever the explicit
assignment fetch would return (including empty). -/
theorem C5_global_roles_full_warehouses :
    ∀ (roles : List UserRole) (r : UserRole)
      (wf rdwf : Except String (List WarehouseCode))
      (wc : Option WarehouseCode),
      r ∈ roles → r ∈ GLOBAL_WAREHOUSE_ACCESS_ROLES →
      (getServerWarehouseFilter (Except.ok roles) wf wc
          true).accessibleWarehouses = ALL_WAREHOUSES ∧
      (getServerWarehouseFilter (Except.ok roles) wf wc true).hasAccess =
          true ∧
      (getUserWarehouseFilter (some roles) rdwf).warehouses =
          ALL_WAREHOUSES ∧
      (getUserWarehouseFilter (some roles) rdwf).hasAllAccess = true := by
  intro roles r wf rdwf wc hr hg
  have hg3 : r = UserRole.admin ∨ r = UserRole.gm ∨
      r = UserRole.ops_manager := by
    simpa [GLOBAL_WAREHOUSE_ACCESS_ROLES] using hg
  have hex : ∃ x ∈ roles, x = UserRole.admin ∨ x = UserRole.gm ∨
      x = UserRole.ops_manager := ⟨r, hr, hg3⟩
  refine ⟨?_, ?_, ?_, ?_⟩ <;>
    simp [getServerWarehouseFilter, getUserWarehouseFilter, hex]

/-- Witness for C5: a gm with an empty assignment list gets all four
warehouses and the global flag. -/
theorem C5_witness :
    (getServerWarehouseFilter (Except.ok [UserRole.gm]) (Except.ok [])
        none true).accessibleWarehouses = ALL_WAREHOUSES ∧
    (getUserWarehouseFilter (some [UserRole.gm])
        (Except.ok [])).hasAllAccess = true :=
  ⟨(C5_global_roles_full_warehouses [UserRole.gm] UserRole.gm
      (Except.ok []) (Except.ok []) none (by decide) (by decide)).1,
   (C5_global_roles_full_warehouses [UserRole.gm] UserRole.gm
      (Except.ok []) (Except.ok []) none (by decide) (by decide)).2.2.2⟩

/-- Claim C6: a user with no global-access role gets exactly the assigned
warehouse list; an empty assignment yields no access (zero warehouses, a
null filter from the consuming query helper, never all-access), and the
SQL filter for an empty accessible set is the always-false condition. -/
theorem C6_assignment_exact_isolation :
    (∀ (roles : List UserRole) (ws : List WarehouseCode)
        (wc : Option WarehouseCode),
      (∀ r ∈ roles, r ∉ GLOBAL_WAREHOUSE_ACCESS_ROLES) → ws ≠ [] →
      (getServerWarehouseFilter (Except.ok roles) (Except.ok ws) wc
          true).accessibleWarehouses = ws ∧
      (getServerWarehouseFilter (Except.ok roles) (Except.ok ws) wc
          true).hasAccess = true) ∧
    (∀ (roles : List UserRole) (wc : Option WarehouseCode),
      (∀ r ∈ roles, r ∉ GLOBAL_WAREHOUSE_ACCESS_ROLES) →
      (getServerWarehouseFilter (Except.ok roles) (Except.ok []) wc
          true).hasAccess = false ∧
      (getServerWarehouseFilter (Except.ok roles) (Except.ok []) wc
          true).accessibleWarehouses = [] ∧
      applyWarehouseFilter (Except.ok roles) (Except.ok []) = none) ∧
    (∀ colName : String, getWarehouseSqlFilter [] colName = "FALSE") := by
  have hnex : ∀ roles : List UserRole,
      (∀ r ∈ roles, r ∉ GLOBAL_WAREHOUSE_ACCESS_ROLES) →
      ¬∃ x ∈ roles, x = UserRole.admin ∨ x = UserRole.gm ∨
        x = UserRole.ops_manager := by
    intro roles hng
    rintro ⟨x, hx, hor⟩
    have h := hng x hx
    rw [GLOBAL_WAREHOUSE_ACCESS_ROLES] at h
    rcases hor with h1 | h1 | h1 <;> subst h1 <;> simp at h
  refine ⟨?_, ?_, fun colName => rfl⟩
  · intro roles ws wc hng hne
    constructor <;>
      simp [getServerWarehouseFilter, hnex roles hng, hne]
  · intro roles wc hng
    refine ⟨?_, ?_, ?_⟩ <;>
      simp [getServerWarehouseFilter, applyWarehouseFilter, hnex roles hng]

/-- Witness for C6: a staff user assigned DDD and MBB gets exactly those,
and with an empty assignment the consuming filter gets null. -/
theorem C6_witness :
    (getServerWarehouseFilter (Except.ok [UserRole.staff])
        (Except.ok [WarehouseCode.DDD, WarehouseCode.MBB]) none
        true).accessibleWarehouses =
      [WarehouseCode.DDD, WarehouseCode.MBB] ∧
    applyWarehouseFilter (Except.ok [UserRole.staff]) (Except.ok []) =
      none :=
  ⟨(C6_assignment_exact_isolation.1 [UserRole.staff]
      [WarehouseCode.DDD, WarehouseCode.MBB] none (by decide)
      (by decide)).1,
   (C6_assignment_exact_isolation.2.1 [UserRole.staff] none
      (by decide)).2.2⟩

/-- Claim C10: an empty role requirement is vacuously satisfied by
`hasAnyRole` and `hasAllRoles`, and `checkApiPermissions` with no
required roles (absent or empty) and no required permission allows any
authenticated user, even one holding zero roles. -/
theorem C10_empty_role_requirement :
    (∀ held : List UserRole,
      hasAnyRole held [] = true ∧ hasAllRoles held [] = true) ∧
    (∀ (uid : String) (roles : List UserRole)
        (wf : Except String (List WarehouseCode)) (b1 b2 : Bool),
      (checkApiPermissions (some uid) (Except.ok roles) wf
          { requiredPermission := none, requiredRoles := none,
            requireAll := b1, requireAllRoles := b2 }).allowed = true ∧
      (checkApiPermissions (some uid) (Except.ok roles) wf
          { requiredPermission := none, requiredRoles := some [],
            requireAll := b1, requireAllRoles := b2 }).allowed = true) ∧
    (checkApiPermissions (some "u0") (Except.ok []) (Except.ok [])
        { requiredPermission := none, requiredRoles := none,
          requireAll := false, requireAllRoles := false }).allowed =
      true := by
  refine ⟨fun held => ⟨rfl, rfl⟩, fun uid roles wf b1 b2 => ⟨rfl, ?_⟩, rfl⟩
  simp [checkApiPermissions]
